import Mathlib

/-!
# Verification of the pesign standalone PE action dispatcher (`src/file_pe.c`)

This file shallowly embeds the core of `file_pe.c`: the resource lifecycle
helpers (`open_input`, `open_output`, `close_output`, `check_inputs`, the
auxiliary file open/close family), the digest printer (`print_digest`) and
the action dispatcher `pe_handle_action`, together with the external
crypto/CMS collaborators it sequences (modelled from the spec at their
interface boundary, since their code is not part of this translation unit).

The embedding is a pure state-passing model: a `St` carries the session
context, a model filesystem, the accumulated stdout text, and a trace of
the primitive calls made so far (used to settle ordering claims).  A fatal
`exit(1)` is modelled as `Except.error` carrying the message and the state
at the moment of exit, since the process leaves its on-disk effects behind.
-/

/-- A signature blob: its raw bytes. -/
abbrev Sig := List Nat

/-- Model of a PE binary: its raw bytes outside the certificate table, and
the ordered certificate table contents. -/
structure PEFile where
  raw : List Nat
  certs : List Sig
deriving DecidableEq, Repr

/-- Contents of a file in the model filesystem: either a PE binary or an
opaque byte blob (signatures, attribute blobs, keys, certificates). -/
inductive FileData where
  | pe (f : PEFile)
  | blob (bytes : List Nat)
deriving DecidableEq, Repr

/-- Model filesystem: association list from path to contents; the first
binding for a path wins. -/
abbrev FS := List (String × FileData)

def fsLookup (fs : FS) (p : String) : Option FileData :=
  match fs with
  | [] => none
  | (q, d) :: rest => if q = p then some d else fsLookup rest p

def fsSet (fs : FS) (p : String) (d : FileData) : FS :=
  (p, d) :: fs

/-- The `cms_context` fields the core mutates: the parsed signature list,
the (separately stored) signature count, the staging slot `newsig`
(`none` models the zeroed state), the certificate name, and the digest
result slot. -/
structure CmsCtx where
  certname : String
  signatures : List Sig
  num_signatures : Int
  newsig : Option Sig
  digest : Option (List Nat)
deriving DecidableEq, Repr

/-- The `pesign_context` fields used by `file_pe.c`: configured paths,
flags, the target index `signum`, the CMS context, and the two structural
PE handles. -/
structure PesignCtx where
  infile : Option String
  outfile : Option String
  rawsig : Option String
  insattrs : Option String
  outsattrs : Option String
  insig : Option String
  outsig : Option String
  outkey : Option String
  outcert : Option String
  force : Bool
  signum : Int
  ascii : Bool
  cms : CmsCtx
  inpe : Option PEFile
  outpe : Option PEFile
deriving DecidableEq, Repr

/-- Trace events: one per primitive call made by the dispatcher, recorded
in chronological order.  Payloads record the data the call actually used. -/
inductive Ev where
  | checkInputs
  | findCert (needKey : Bool)
  | openFile (role : String)
  | closeFile (role : String)
  | openInput
  | closeInput
  | openOutput
  | copyOut (f : PEFile)
  | clearCert
  | genDigest (d : List Nat)
  | calcSigSpace (n : Int)
  | getSigspaceExtend (n : Int)
  | allocSigSpace (n : Int)
  | checkSigSpace
  | genSignature
  | importRawSig
  | parseSig
  | insertSig (i : Int)
  | removeSig (i : Int)
  | sigBoundCheck (signum count : Int)
  | exportSig
  | clearNewsig
  | finalize
  | commit
  | listSigs
  | genSattr
  | exportPubkey
  | exportCert
  | printDigestEv (s : String)
deriving DecidableEq, Repr

/-- Whole-machine state: session context, filesystem, stdout text, trace. -/
structure St where
  ctx : PesignCtx
  fs : FS
  out : String
  trace : List Ev
deriving DecidableEq, Repr

/-- A fatal exit carries the diagnostic and the state at the exit point. -/
abbrev Er := String × St

/-- A workflow step: state to state, or fatal exit. -/
abbrev M0 := St → Except Er St

/-- Sequencing of steps; a fatal exit short-circuits. -/
def mseq (f g : M0) : M0 := fun st =>
  match f st with
  | .ok st' => g st'
  | .error e => .error e

def pushEv (e : Ev) (st : St) : St :=
  { st with trace := st.trace ++ [e] }

/-- Environment: the external crypto/CMS collaborator, modelled from the
spec at its interface boundary (its code is outside this translation
unit).  `haveCert`/`haveKey` describe the trust store; the functions are
the abstract results of digesting, sizing and signing. -/
structure Env where
  haveCert : Bool
  haveKey : Bool
  digestFn : PEFile → Int → List Nat
  sigSpaceFn : List Nat → PEFile → Int
  extendFn : Int → PEFile → Sig → Int
  genSigFn : List Nat → Sig
  parseSigFn : List Nat → Sig
  sigFits : Sig → Bool
  sattrFn : List Nat → List Nat
  pubkeyBytes : List Nat
  certBytes : List Nat

/-- Modelled from the spec: `find_certificate(context, need_key)` locates
the configured certificate in the trust store, optionally requiring an
associated private key; returns negative on not-found (the C convention
checked by the dispatcher). -/
def find_certificate (env : Env) (needKey : Bool) : Int :=
  if env.haveCert && (!needKey || env.haveKey) then 0 else -1

/-- The inline pattern the dispatcher uses around `find_certificate`:
call it with the given `need_key` flag and exit fatally with the
"Could not find certificate" diagnostic when it fails. -/
def findCertStep (env : Env) (needKey : Bool) : M0 := fun st =>
  let st := pushEv (.findCert needKey) st
  if find_certificate env needKey < 0 then
    .error ("pesign: Could not find certificate " ++ st.ctx.cms.certname, st)
  else
    .ok st

/-- `open_input`: requires a configured input path, opens it read-only,
loads the structural handle, and parses the existing signature table into
the CMS context (`parse_signatures` sets both the entry list and the
count). -/
def open_input : M0 := fun st =>
  match st.ctx.infile with
  | none => .error ("pesign: No input file specified.", st)
  | some p =>
    match fsLookup st.fs p with
    | some (.pe f) =>
      let st := pushEv .openInput st
      .ok { st with ctx := { st.ctx with
              inpe := some f,
              cms := { st.ctx.cms with
                signatures := f.certs,
                num_signatures := (f.certs.length : Int) } } }
    | _ => .error ("pesign: Error opening input", st)

/-- `close_input`: releases the structural handle and the descriptor. -/
def close_input : M0 := fun st =>
  .ok (pushEv .closeInput { st with ctx := { st.ctx with inpe := none } })

/-- `open_output`: requires a configured output path; refuses to clobber
an existing file unless `force`; creates the file, copies the input
binary's entire raw content into it, reopens it as a writable structural
handle, and clears its certificate table (`pe_clearcert`).  Because the
handle is a read-write mapping of the file, every mutation of the handle
is reflected in the filesystem immediately. -/
def open_output : M0 := fun st =>
  match st.ctx.outfile with
  | none => .error ("pesign: No output file specified.", st)
  | some p =>
    if (fsLookup st.fs p).isSome && st.ctx.force = false then
      .error ("pesign: \"" ++ p ++ "\" exists and --force was not given.", st)
    else
      match st.ctx.inpe with
      | none => .error ("pesign: could not load output file", st)
      | some fin =>
        let st := pushEv .openOutput st
        let st := pushEv (.copyOut fin) { st with fs := fsSet st.fs p (.pe fin) }
        let cleared : PEFile := { fin with certs := [] }
        .ok (pushEv .clearCert
          { st with
            ctx := { st.ctx with outpe := some cleared },
            fs := fsSet st.fs p (.pe cleared) })

/-- Modelled from the spec: `finalize_signatures` serializes the current
entry list back into the binary's certificate table representation. -/
def finalize_signatures (sigs : List Sig) (f : PEFile) : PEFile :=
  { f with certs := sigs }

/-- `close_output`: finalizes the signature table into the output handle,
commits it (`pe_update`), releases the handle and closes the descriptor. -/
def close_output : M0 := fun st =>
  match st.ctx.outpe, st.ctx.outfile with
  | some f, some p =>
    let f' := finalize_signatures st.ctx.cms.signatures f
    let st := pushEv .finalize
      { st with
        ctx := { st.ctx with outpe := some f' },
        fs := fsSet st.fs p (.pe f') }
    let st := pushEv .commit st
    .ok { st with ctx := { st.ctx with outpe := none } }
  | _, _ => .error ("pesign: internal error: no output handle", st)

/-- The `define_input_file` macro family: require the role's path, open it
read-only or fail fatally naming the role. -/
def openAuxInput (getPath : PesignCtx → Option String) (role : String) : M0 :=
  fun st =>
    match getPath st.ctx with
    | none => .error ("No input file specified for " ++ role, st)
    | some p =>
      match fsLookup st.fs p with
      | some _ => .ok (pushEv (.openFile role) st)
      | none =>
        .error ("Error opening " ++ role ++ " file \"" ++ p ++ "\" for input", st)

/-- The `define_output_file` macro family: require the role's path, refuse
to clobber without `force`, create the file. -/
def openAuxOutput (getPath : PesignCtx → Option String) (role : String) : M0 :=
  fun st =>
    match getPath st.ctx with
    | none => .error ("No output file specified for " ++ role ++ ".", st)
    | some p =>
      if (fsLookup st.fs p).isSome && st.ctx.force = false then
        .error ("\"" ++ p ++ "\" exists and --force was not given.", st)
      else
        .ok (pushEv (.openFile role) { st with fs := fsSet st.fs p (.blob []) })

def closeAux (role : String) : M0 := fun st =>
  .ok (pushEv (.closeFile role) st)

/-- `check_inputs`: both paths must be set and must differ; in-place
editing is a fatal usage error. -/
def check_inputs : M0 := fun st =>
  match st.ctx.infile with
  | none => .error ("pesign: No input file specified.", st)
  | some pin =>
    match st.ctx.outfile with
    | none => .error ("pesign: No output file specified.", st)
    | some pout =>
      if pin = pout then
        .error ("pesign: in-place file editing is not yet supported", st)
      else
        .ok (pushEv .checkInputs st)

/-- Two lowercase hex digits for a byte value, as printed by `%02x` on an
`unsigned char`: digit values 0–9 map to codepoints 48–57, 10–15 to 97–102. -/
def hexDigit (n : Nat) : Char :=
  if n < 10 then Char.ofNat (48 + n) else Char.ofNat (87 + n)

def byteHex (b : Nat) : String :=
  String.mk [hexDigit (b % 256 / 16), hexDigit (b % 16)]

def hexOfBytes : List Nat → String
  | [] => ""
  | b :: rest => byteHex b ++ hexOfBytes rest

/-- `print_digest`: the exact text the `printf` calls emit — the input
path, one space, each digest byte as two lowercase hex digits with no
separators, and a newline. -/
def print_digest_str (path : String) (d : List Nat) : String :=
  path ++ " " ++ hexOfBytes d ++ "\n"

/-- The `print_digest` step: formats the stored digest of the CMS context
and appends the text to stdout. -/
def print_digest : M0 := fun st =>
  let s := print_digest_str (st.ctx.infile.getD "") (st.ctx.cms.digest.getD [])
  .ok (pushEv (.printDigestEv s) { st with out := st.out ++ s })

/-- `generate_digest(cms, pe, padding)`: external digest computation; the
result is stored in the CMS context's digest slot. -/
def generate_digest (env : Env) (pe : Option PEFile) (padding : Int) : M0 :=
  fun st =>
    let d := env.digestFn (pe.getD { raw := [], certs := [] }) padding
    .ok (pushEv (.genDigest d)
      { st with ctx := { st.ctx with cms := { st.ctx.cms with digest := some d } } })

/-- `calculate_signature_space`: external sizing of a freshly generated
signature, from the digest just computed. -/
def calcSigSpaceAmount (env : Env) (st : St) : Int :=
  env.sigSpaceFn (st.ctx.cms.digest.getD []) (st.ctx.outpe.getD { raw := [], certs := [] })

def calcSigSpaceStep (env : Env) : M0 := fun st =>
  .ok (pushEv (.calcSigSpace (calcSigSpaceAmount env st)) st)

/-- `get_sigspace_extend_amount`: external sizing of the table growth
needed for an externally supplied signature blob. -/
def extendAmount (env : Env) (st : St) : Int :=
  env.extendFn st.ctx.cms.num_signatures (st.ctx.outpe.getD { raw := [], certs := [] })
    (st.ctx.cms.newsig.getD [])

def extendAmountStep (env : Env) : M0 := fun st =>
  .ok (pushEv (.getSigspaceExtend (extendAmount env st)) st)

/-- `allocate_signature_space(outpe, sigspace)`: grows the output binary's
certificate-table region; the resulting layout arithmetic is the binary
format collaborator's concern, so only the call and its amount are
recorded. -/
def allocate_signature_space (n : Int) : M0 := fun st =>
  .ok (pushEv (.allocSigSpace n) st)

/-- `check_signature_space`: validates that the imported signature fits
the allocated space; mismatch is fatal. -/
def check_signature_space (env : Env) : M0 := fun st =>
  let st := pushEv .checkSigSpace st
  if env.sigFits (st.ctx.cms.newsig.getD []) then .ok st
  else .error ("pesign: signature does not fit in allocated space", st)

/-- `generate_signature`: external signing using the stored digest; the
result lands in the staging slot `newsig`. -/
def generate_signature (env : Env) : M0 := fun st =>
  .ok (pushEv .genSignature
    { st with ctx := { st.ctx with cms := { st.ctx.cms with
        newsig := some (env.genSigFn (st.ctx.cms.digest.getD [])) } } })

/-- `import_raw_signature`: reads the raw signature and signed-attribute
files into the CMS context; only the call is recorded (its payload feeds
the external signing step). -/
def import_raw_signature : M0 := fun st =>
  .ok (pushEv .importRawSig st)

/-- `parse_signature`: reads the signature file into the staging slot. -/
def parse_signature (env : Env) : M0 := fun st =>
  let bytes :=
    match st.ctx.insig.bind (fsLookup st.fs) with
    | some (.blob b) => b
    | some (.pe f) => f.raw
    | none => []
  .ok (pushEv .parseSig
    { st with ctx := { st.ctx with cms := { st.ctx.cms with
        newsig := some (env.parseSigFn bytes) } } })

/-- Modelled from the spec: `insert(index, entry)` places the entry at
`index`; `index` may equal the current count (append) or an existing index
(replace-at-position); other indices leave the table unchanged (the spec
defines no behaviour for them). -/
def table_insert (l : List Sig) (i : Int) (s : Sig) : List Sig :=
  if i = (l.length : Int) then l ++ [s]
  else if 0 ≤ i ∧ i < (l.length : Int) then l.set i.toNat s
  else l

/-- `insert_signature(cms, signum)`: places the staging slot's signature
at the requested index and updates the count. -/
def insert_signature : M0 := fun st =>
  let l := table_insert st.ctx.cms.signatures st.ctx.signum (st.ctx.cms.newsig.getD [])
  .ok (pushEv (.insertSig st.ctx.signum)
    { st with ctx := { st.ctx with cms := { st.ctx.cms with
        signatures := l, num_signatures := (l.length : Int) } } })

/-- Modelled from the spec: `remove(index)` deletes the entry at `index`
(the dispatcher has already range-checked it). -/
def table_remove (l : List Sig) (i : Int) : List Sig :=
  if 0 ≤ i ∧ i < (l.length : Int) then l.eraseIdx i.toNat else l

/-- `remove_signature(ctx)`: deletes the entry at `signum` and updates the
count. -/
def remove_signature : M0 := fun st =>
  let l := table_remove st.ctx.cms.signatures st.ctx.signum
  .ok (pushEv (.removeSig st.ctx.signum)
    { st with ctx := { st.ctx with cms := { st.ctx.cms with
        signatures := l, num_signatures := (l.length : Int) } } })

/-- Element of the signature table at an in-range index. -/
def sigAt (l : List Sig) (i : Int) : Sig :=
  (l.get? i.toNat).getD []

/-- `export_signature(cms, outsigfd, ascii)`: writes the staging slot's
bytes to the signature output file (the optional ASCII armor of the bytes
is the crypto collaborator's concern and is not modelled). -/
def export_signature : M0 := fun st =>
  match st.ctx.outsig with
  | some p =>
    .ok (pushEv .exportSig
      { st with fs := fsSet st.fs p (.blob (st.ctx.cms.newsig.getD [])) })
  | none => .error ("pesign: internal error: no signature output path", st)

/-- `generate_sattr_blob`: writes the signed-attribute blob derived from
the stored digest to the attributes output file. -/
def generate_sattr_blob (env : Env) : M0 := fun st =>
  match st.ctx.outsattrs with
  | some p =>
    .ok (pushEv .genSattr
      { st with fs := fsSet st.fs p (.blob (env.sattrFn (st.ctx.cms.digest.getD []))) })
  | none => .error ("pesign: internal error: no sattr output path", st)

/-- `export_pubkey`: writes the located certificate's public key. -/
def export_pubkey (env : Env) : M0 := fun st =>
  match st.ctx.outkey with
  | some p => .ok (pushEv .exportPubkey { st with fs := fsSet st.fs p (.blob env.pubkeyBytes) })
  | none => .error ("pesign: internal error: no pubkey output path", st)

/-- `export_cert`: writes the located certificate. -/
def export_cert (env : Env) : M0 := fun st =>
  match st.ctx.outcert with
  | some p => .ok (pushEv .exportCert { st with fs := fsSet st.fs p (.blob env.certBytes) })
  | none => .error ("pesign: internal error: no certificate output path", st)

/-- `list_signatures`: read-only enumeration. -/
def list_signatures : M0 := fun st => .ok (pushEv .listSigs st)

/-- The legal action combinations of `pe_handle_action`'s switch, one
constructor per `case` label of the C source (the bitmask value itself
carries no further information once dispatch has selected a case). -/
inductive PeAction where
  | importRawSigSattrs
  | exportSattrs
  | importSig
  | exportPubkey
  | exportCert
  | exportSig
  | removeSig
  | listSigs
  | digestOmitVendor
  | digest
  | genExportSig
  | genImportSig
deriving DecidableEq, Repr

/-- The `signum > num_signatures + 1` bound check shared by the
import-signature and generate-and-embed cases; the trace records the
count the comparison actually used. -/
def sigBoundCheckStep : M0 := fun st =>
  let st := pushEv (.sigBoundCheck st.ctx.signum st.ctx.cms.num_signatures) st
  if st.ctx.signum > st.ctx.cms.num_signatures + 1 then
    .error ("Invalid signature number.", st)
  else
    .ok st

/-- The inline index validation of the `EXPORT_SIGNATURE` case: reject
`signum > count`, clamp a negative `signum` to 0, then reject
`signum ≥ count`; on success copy the selected entry into the staging
slot (`memcpy` into `newsig`). -/
def exportSigSelect : M0 := fun st =>
  if st.ctx.signum > st.ctx.cms.num_signatures then
    .error ("Invalid signature number.", st)
  else
    let st := if st.ctx.signum < 0 then { st with ctx := { st.ctx with signum := 0 } } else st
    if st.ctx.signum ≥ st.ctx.cms.num_signatures then
      .error ("No valid signature #" ++ toString st.ctx.signum ++ ".", st)
    else
      .ok { st with ctx := { st.ctx with cms := { st.ctx.cms with
        newsig := some (sigAt st.ctx.cms.signatures st.ctx.signum) } } }

/-- The inline index validation of the `REMOVE_SIGNATURE` case. -/
def removeSigCheck : M0 := fun st =>
  if st.ctx.signum < 0 || st.ctx.signum ≥ st.ctx.cms.num_signatures then
    .error ("Invalid signature number " ++ toString st.ctx.signum ++
      ".  Must be between 0 and " ++ toString (st.ctx.cms.num_signatures - 1) ++ ".", st)
  else
    .ok st

/-- The `memset(&newsig, 0, ...)` at the end of the export case. -/
def clearNewsigStep : M0 := fun st =>
  .ok (pushEv .clearNewsig
    { st with ctx := { st.ctx with cms := { st.ctx.cms with newsig := none } } })

/-- `pe_handle_action`: the dispatcher's switch, one ordered call sequence
per legal action combination, translated case by case from the C source. -/
def pe_handle_action (env : Env) (action : PeAction) (padding : Int) : M0 :=
  match action with
  | .importRawSigSattrs =>
    mseq check_inputs <| mseq (findCertStep env false) <|
    mseq (openAuxInput PesignCtx.rawsig "raw signature") <|
    mseq (openAuxInput PesignCtx.insattrs "signed attributes") <|
    mseq import_raw_signature <|
    mseq (closeAux "signed attributes") <| mseq (closeAux "raw signature") <|
    mseq open_input <| mseq open_output <| mseq close_input <|
    mseq (fun st => generate_digest env st.ctx.outpe 1 st) <|
    mseq (calcSigSpaceStep env) <|
    mseq (fun st => allocate_signature_space (calcSigSpaceAmount env st) st) <|
    mseq (generate_signature env) <| mseq insert_signature close_output
  | .exportSattrs =>
    mseq open_input <| mseq (openAuxOutput PesignCtx.outsattrs "signed attributes") <|
    mseq (fun st => generate_digest env st.ctx.inpe 1 st) <|
    mseq (generate_sattr_blob env) <|
    mseq (closeAux "signed attributes") close_input
  | .importSig =>
    mseq check_inputs <| mseq sigBoundCheckStep <|
    mseq open_input <| mseq open_output <| mseq close_input <|
    mseq (openAuxInput PesignCtx.insig "signature") <|
    mseq (parse_signature env) <|
    mseq (extendAmountStep env) <|
    mseq (fun st => allocate_signature_space (extendAmount env st) st) <|
    mseq (check_signature_space env) <|
    mseq insert_signature <|
    mseq (closeAux "signature") close_output
  | .exportPubkey =>
    mseq (findCertStep env true) <|
    mseq (openAuxOutput PesignCtx.outkey "pubkey") (export_pubkey env)
  | .exportCert =>
    mseq (findCertStep env false) <|
    mseq (openAuxOutput PesignCtx.outcert "certificate") (export_cert env)
  | .exportSig =>
    mseq open_input <| mseq (openAuxOutput PesignCtx.outsig "signature") <|
    mseq exportSigSelect <| mseq export_signature <|
    mseq close_input <| mseq (closeAux "signature") clearNewsigStep
  | .removeSig =>
    mseq check_inputs <| mseq open_input <| mseq open_output <| mseq close_input <|
    mseq removeSigCheck <| mseq remove_signature close_output
  | .listSigs =>
    mseq open_input list_signatures
  | .digestOmitVendor =>
    mseq open_input <|
    mseq (fun st => generate_digest env st.ctx.inpe padding st) print_digest
  | .digest =>
    mseq open_input <|
    mseq (fun st => generate_digest env st.ctx.inpe padding st) print_digest
  | .genExportSig =>
    mseq (findCertStep env true) <|
    mseq open_input <| mseq (openAuxOutput PesignCtx.outsig "signature") <|
    mseq (fun st => generate_digest env st.ctx.inpe 1 st) <|
    mseq (generate_signature env) export_signature
  | .genImportSig =>
    mseq check_inputs <| mseq (findCertStep env true) <|
    mseq sigBoundCheckStep <|
    mseq open_input <| mseq open_output <| mseq close_input <|
    mseq (fun st => generate_digest env st.ctx.outpe 1 st) <|
    mseq (calcSigSpaceStep env) <|
    mseq (fun st => allocate_signature_space (calcSigSpaceAmount env st) st) <|
    mseq (fun st => generate_digest env st.ctx.outpe 1 st) <|
    mseq (generate_signature env) <| mseq insert_signature close_output

/-- The state a run ends in: the final state on success, the state at the
exit point on a fatal error (the process leaves its effects behind). -/
def stOf : Except Er St → St
  | .ok st => st
  | .error (_, st) => st

/-- Whether a run completed without a fatal exit. -/
def runOk : Except Er St → Bool
  | .ok _ => true
  | .error _ => false

/-- The fatal diagnostic of a run, when there is one. -/
def errMsg : Except Er St → Option String
  | .ok _ => none
  | .error (m, _) => some m

/-- Constructor tag of a trace event, with payloads erased; used to state
ordering properties uniformly. -/
def tag : Ev → Nat
  | .checkInputs => 0
  | .findCert _ => 1
  | .openFile _ => 2
  | .closeFile _ => 3
  | .openInput => 4
  | .closeInput => 5
  | .openOutput => 6
  | .copyOut _ => 7
  | .clearCert => 8
  | .genDigest _ => 9
  | .calcSigSpace _ => 10
  | .getSigspaceExtend _ => 11
  | .allocSigSpace _ => 12
  | .checkSigSpace => 13
  | .genSignature => 14
  | .importRawSig => 15
  | .parseSig => 16
  | .insertSig _ => 17
  | .removeSig _ => 18
  | .sigBoundCheck _ _ => 19
  | .exportSig => 20
  | .clearNewsig => 21
  | .finalize => 22
  | .commit => 23
  | .listSigs => 24
  | .genSattr => 25
  | .exportPubkey => 26
  | .exportCert => 27
  | .printDigestEv _ => 28

def tagsOf (t : List Ev) : List Nat := t.map tag

/-- A session context with the given paths, force flag, target index and
initial signature count; the remaining fields are at their initial values. -/
def mkCtx (infile outfile insig outsig : Option String) (force : Bool)
    (signum num0 : Int) : PesignCtx :=
  { infile := infile, outfile := outfile, rawsig := none, insattrs := none,
    outsattrs := none, insig := insig, outsig := outsig, outkey := none,
    outcert := none, force := force, signum := signum, ascii := false,
    cms := { certname := "cert", signatures := [], num_signatures := num0,
             newsig := none, digest := none },
    inpe := none, outpe := none }

def mkSt (ctx : PesignCtx) (fs : FS) : St :=
  { ctx := ctx, fs := fs, out := "", trace := [] }

/-- A concrete external environment for evaluating runs on concrete
inputs: the trust store has the certificate and its key, and the crypto
results are simple computable stand-ins. -/
def env0 : Env :=
  { haveCert := true, haveKey := true,
    digestFn := fun f p => [f.raw.length % 256, p.toNat % 256],
    sigSpaceFn := fun d _ => (d.length : Int) + 8,
    extendFn := fun _ _ s => (s.length : Int) + 8,
    genSigFn := fun d => 1 :: d,
    parseSigFn := fun b => b,
    sigFits := fun _ => true,
    sattrFn := fun d => 2 :: d,
    pubkeyBytes := [3], certBytes := [4] }

/-- `env0` with the certificate present but no private key. -/
def envNoKey : Env := { env0 with haveKey := false }

/-- `env0` with the certificate absent from the trust store. -/
def envNoCert : Env := { env0 with haveCert := false }

/-- Whether a character is a lowercase hexadecimal digit
(codepoints 48–57 or 97–102). -/
def isHexLowerChar (c : Char) : Bool :=
  (48 ≤ c.toNat && c.toNat ≤ 57) || (97 ≤ c.toNat && c.toNat ≤ 102)

/-- Fixture binary for concrete evaluations: two raw bytes and one
embedded signature. -/
def peW : PEFile := { raw := [10, 20], certs := [[5, 6]] }

/-- Fixture binary with two embedded signatures. -/
def peW2 : PEFile := { raw := [10, 20, 30], certs := [[5, 6], [7]] }

/-- Fixture filesystem: the input binary and the auxiliary input files;
no output path exists. -/
def fsW : FS :=
  [("in", .pe peW), ("raw.sig", .blob [9]), ("attrs.in", .blob [8]),
   ("sig.in", .blob [7, 7])]

/-- Tag sequence of the trace a dispatcher run ends with. -/
def runTags (env : Env) (action : PeAction) (padding : Int) (ctx : PesignCtx)
    (fs : FS) : List Nat :=
  tagsOf (stOf (pe_handle_action env action padding (mkSt ctx fs))).trace

theorem fsLookup_fsSet_self (fs : FS) (p : String) (d : FileData) :
    fsLookup (fsSet fs p d) p = some d := by
  simp [fsLookup, fsSet]

theorem fsLookup_fsSet_ne (fs : FS) (p q : String) (d : FileData) (h : p ≠ q) :
    fsLookup (fsSet fs p d) q = fsLookup fs q := by
  simp [fsLookup, fsSet, h]

/-- Shared description of the `REMOVE_SIGNATURE` workflow on an
out-of-range index: `check_inputs`, `open_input`, `open_output` and
`close_input` all run first, then the inline range check exits fatally.
The exit state records the output file already holding a cleared-table
copy of the input, and a trace with no table mutation. -/
theorem removeSig_invalid_run
    (env : Env) (padding : Int)
    (pin pout : String) (fin : PEFile) (fs : FS)
    (hne : pin ≠ pout)
    (hin : fsLookup fs pin = some (.pe fin))
    (hout : fsLookup fs pout = none)
    (signum num0 : Int)
    (hbad : signum < 0 ∨ signum ≥ (fin.certs.length : Int)) :
    pe_handle_action env .removeSig padding
        (mkSt (mkCtx (some pin) (some pout) none none false signum num0) fs) =
      .error ("Invalid signature number " ++ toString signum ++
          ".  Must be between 0 and " ++ toString ((fin.certs.length : Int) - 1) ++ ".",
        { ctx := { mkCtx (some pin) (some pout) none none false signum num0 with
            cms := { certname := "cert", signatures := fin.certs,
                     num_signatures := (fin.certs.length : Int),
                     newsig := none, digest := none },
            inpe := none,
            outpe := some { raw := fin.raw, certs := [] } },
          fs := fsSet (fsSet fs pout (.pe fin)) pout (.pe { raw := fin.raw, certs := [] }),
          out := "",
          trace := [.checkInputs, .openInput, .openOutput, .copyOut fin, .clearCert,
                    .closeInput] }) := by
  have hb : (signum < 0 || signum ≥ (fin.certs.length : Int)) = true := by
    rcases hbad with h | h <;> simp [h]
  simp [pe_handle_action, mseq, check_inputs, open_input, open_output, close_input,
    removeSigCheck, mkSt, mkCtx, pushEv, fsSet, hne, hin, hout, hb]

/-- C6: `check_inputs` fails fatally when the input path is unset, when
the output path is unset, or when the two paths are identical; in the
identical-path case the message is exactly
"pesign: in-place file editing is not yet supported", whatever the other
fields of the context hold. -/
theorem check_inputs_usage_errors
    (st1 st2 st3 : St) (pin pident : String)
    (h1 : st1.ctx.infile = none)
    (h2 : st2.ctx.infile = some pin) (h3 : st2.ctx.outfile = none)
    (h4 : st3.ctx.infile = some pident) (h5 : st3.ctx.outfile = some pident) :
    check_inputs st1 = .error ("pesign: No input file specified.", st1) ∧
    check_inputs st2 = .error ("pesign: No output file specified.", st2) ∧
    check_inputs st3 =
      .error ("pesign: in-place file editing is not yet supported", st3) := by
  refine ⟨?_, ?_, ?_⟩
  · simp [check_inputs, h1]
  · simp [check_inputs, h2, h3]
  · simp [check_inputs, h4, h5]

/-- Witness for `check_inputs_usage_errors` at concrete states. -/
theorem check_inputs_usage_errors_inst :
    (mkSt (mkCtx none none none none false 0 0) []).ctx.infile = none ∧
    check_inputs (mkSt (mkCtx none none none none false 0 0) []) =
      .error ("pesign: No input file specified.",
        mkSt (mkCtx none none none none false 0 0) []) ∧
    check_inputs (mkSt (mkCtx (some "in") none none none false 0 0) []) =
      .error ("pesign: No output file specified.",
        mkSt (mkCtx (some "in") none none none false 0 0) []) ∧
    check_inputs (mkSt (mkCtx (some "x") (some "x") none none true 3 0) []) =
      .error ("pesign: in-place file editing is not yet supported",
        mkSt (mkCtx (some "x") (some "x") none none true 3 0) []) := by
  have h := check_inputs_usage_errors
    (mkSt (mkCtx none none none none false 0 0) [])
    (mkSt (mkCtx (some "in") none none none false 0 0) [])
    (mkSt (mkCtx (some "x") (some "x") none none true 3 0) [])
    "in" "x" rfl rfl rfl rfl rfl
  exact ⟨rfl, h.1, h.2.1, h.2.2⟩

/-- C4: `open_output` on an existing path without force fails fatally and
leaves the filesystem untouched (the error carries the unchanged state);
otherwise it succeeds, the trace records that the bytes written to the
output were the input binary's entire content (`copyOut fin`, a
size-matched full copy) before the table clear (`clearCert`), and the
resulting output file is that copy with its certificate table cleared. -/
theorem open_output_overwrite_and_copy
    (st : St) (p : String) (fin : PEFile)
    (hp : st.ctx.outfile = some p) (hin : st.ctx.inpe = some fin) :
    ((fsLookup st.fs p).isSome = true → st.ctx.force = false →
      open_output st =
        .error ("pesign: \"" ++ p ++ "\" exists and --force was not given.", st)) ∧
    (fsLookup st.fs p = none ∨ st.ctx.force = true →
      open_output st = .ok
        { st with
          ctx := { st.ctx with outpe := some { raw := fin.raw, certs := [] } },
          fs := fsSet (fsSet st.fs p (.pe fin)) p (.pe { raw := fin.raw, certs := [] }),
          trace := st.trace ++ [.openOutput, .copyOut fin, .clearCert] } ∧
      fsLookup (fsSet (fsSet st.fs p (.pe fin)) p (.pe { raw := fin.raw, certs := [] })) p
        = some (.pe { raw := fin.raw, certs := [] })) := by
  constructor
  · intro hex hforce
    simp [open_output, hp, hex, hforce]
  · intro h
    rcases h with h | h
    · constructor
      · simp [open_output, hp, hin, h, pushEv]
      · exact fsLookup_fsSet_self _ _ _
    · constructor
      · simp [open_output, hp, hin, h, pushEv]
      · exact fsLookup_fsSet_self _ _ _

/-- Witness for `open_output_overwrite_and_copy`: the refusal branch on a
state whose output path exists, and the copy branch on `fsW`. -/
theorem open_output_overwrite_and_copy_inst :
    (mkSt { mkCtx (some "x") (some "in") none none false 0 0 with inpe := some peW } fsW).ctx.outfile
        = some "in" ∧
    (fsLookup fsW "in").isSome = true ∧
    open_output (mkSt { mkCtx (some "x") (some "in") none none false 0 0 with
        inpe := some peW } fsW) =
      .error ("pesign: \"in\" exists and --force was not given.",
        mkSt { mkCtx (some "x") (some "in") none none false 0 0 with inpe := some peW } fsW) ∧
    open_output (mkSt { mkCtx (some "x") (some "out") none none false 0 0 with
        inpe := some peW } fsW) =
      .ok { mkSt { mkCtx (some "x") (some "out") none none false 0 0 with
              inpe := some peW } fsW with
        ctx := { mkCtx (some "x") (some "out") none none false 0 0 with
          inpe := some peW, outpe := some { raw := peW.raw, certs := [] } },
        fs := fsSet (fsSet fsW "out" (.pe peW)) "out" (.pe { raw := peW.raw, certs := [] }),
        trace := [.openOutput, .copyOut peW, .clearCert] } := by
  refine ⟨rfl, rfl, ?_, ?_⟩
  · exact (open_output_overwrite_and_copy
      (mkSt { mkCtx (some "x") (some "in") none none false 0 0 with inpe := some peW } fsW)
      "in" peW rfl rfl).1 rfl rfl
  · have h := (open_output_overwrite_and_copy
      (mkSt { mkCtx (some "x") (some "out") none none false 0 0 with inpe := some peW } fsW)
      "out" peW rfl rfl).2 (Or.inl rfl)
    exact h.1

/-- C1 counterexample: a negative `signum` on export does NOT fail.  With
one signature in the input, requesting export at index `-1` is clamped to
0 by the dispatcher and the whole workflow succeeds, contradicting the
claim that every negative index fails on export. -/
theorem export_negative_signum_succeeds :
    ((-1 : Int) < 0) ∧
    runOk (pe_handle_action env0 .exportSig 0
      (mkSt (mkCtx (some "in") none none (some "sig.out") false (-1) 0) fsW)) = true := by
  exact ⟨by decide, rfl⟩

/-- C1 (amended): on remove, every invalid `signum` (negative or beyond
the parsed count) fails fatally with the index-range diagnostic and the
in-memory signature table is left as parsed; on export, a `signum` at or
beyond the count fails fatally with an index-range diagnostic and the
table is left as parsed, while a negative `signum` is clamped to 0 and
fails only when the table is empty. -/
theorem remove_export_invalid_index
    (env : Env) (padding : Int) (pin pout : String) (fin : PEFile) (fs : FS)
    (signum num0 : Int)
    (hne : pin ≠ pout)
    (hin : fsLookup fs pin = some (.pe fin))
    (hout : fsLookup fs pout = none) :
    (signum < 0 ∨ signum ≥ (fin.certs.length : Int) →
      runOk (pe_handle_action env .removeSig padding
        (mkSt (mkCtx (some pin) (some pout) none none false signum num0) fs)) = false ∧
      errMsg (pe_handle_action env .removeSig padding
        (mkSt (mkCtx (some pin) (some pout) none none false signum num0) fs)) =
        some ("Invalid signature number " ++ toString signum ++
          ".  Must be between 0 and " ++ toString ((fin.certs.length : Int) - 1) ++ ".") ∧
      (stOf (pe_handle_action env .removeSig padding
        (mkSt (mkCtx (some pin) (some pout) none none false signum num0) fs))).ctx.cms.signatures
        = fin.certs) ∧
    (signum ≥ (fin.certs.length : Int) →
      runOk (pe_handle_action env .exportSig padding
        (mkSt (mkCtx (some pin) none none (some pout) false signum num0) fs)) = false ∧
      (errMsg (pe_handle_action env .exportSig padding
        (mkSt (mkCtx (some pin) none none (some pout) false signum num0) fs)) =
          some "Invalid signature number." ∨
       errMsg (pe_handle_action env .exportSig padding
        (mkSt (mkCtx (some pin) none none (some pout) false signum num0) fs)) =
          some ("No valid signature #" ++ toString signum ++ ".")) ∧
      (stOf (pe_handle_action env .exportSig padding
        (mkSt (mkCtx (some pin) none none (some pout) false signum num0) fs))).ctx.cms.signatures
        = fin.certs) ∧
    (signum < 0 → fin.certs = [] →
      runOk (pe_handle_action env .exportSig padding
        (mkSt (mkCtx (some pin) none none (some pout) false signum num0) fs)) = false ∧
      errMsg (pe_handle_action env .exportSig padding
        (mkSt (mkCtx (some pin) none none (some pout) false signum num0) fs)) =
        some ("No valid signature #" ++ toString (0 : Int) ++ ".") ∧
      (stOf (pe_handle_action env .exportSig padding
        (mkSt (mkCtx (some pin) none none (some pout) false signum num0) fs))).ctx.cms.signatures
        = fin.certs) := by
  refine ⟨fun hbad => ?_, fun hge => ?_, fun hneg hnil => ?_⟩
  · rw [removeSig_invalid_run env padding pin pout fin fs hne hin hout signum num0 hbad]
    exact ⟨rfl, rfl, rfl⟩
  · rcases eq_or_lt_of_le hge with heq | hlt
    · have h0 : ¬ signum < 0 := by omega
      have h2 : signum ≥ (fin.certs.length : Int) := le_of_eq heq
      have h1 : ¬ signum > (fin.certs.length : Int) := by omega
      refine ⟨?_, Or.inr ?_, ?_⟩ <;>
        simp [pe_handle_action, mseq, open_input, openAuxOutput, exportSigSelect,
          mkSt, mkCtx, pushEv, fsSet, hin, hout, h0, h1, h2, runOk, errMsg, stOf]
    · have h1 : signum > (fin.certs.length : Int) := hlt
      refine ⟨?_, Or.inl ?_, ?_⟩ <;>
        simp [pe_handle_action, mseq, open_input, openAuxOutput, exportSigSelect,
          mkSt, mkCtx, pushEv, fsSet, hin, hout, h1, runOk, errMsg, stOf]
  · have h1 : ¬ signum > (fin.certs.length : Int) := by
      rw [hnil]; simp; omega
    have h2 : ((0 : Int) ≥ (fin.certs.length : Int)) := by rw [hnil]; simp
    refine ⟨?_, ?_, ?_⟩ <;>
      simp [pe_handle_action, mseq, open_input, openAuxOutput, exportSigSelect,
        mkSt, mkCtx, pushEv, fsSet, hin, hout, h1, h2, hneg, runOk, errMsg, stOf]

/-- Witness for `remove_export_invalid_index`: `signum = 5` against a
one-signature binary fails on both remove and export. -/
theorem remove_export_invalid_index_inst :
    ("in" : String) ≠ "out" ∧
    fsLookup fsW "in" = some (.pe peW) ∧
    fsLookup fsW "out" = none ∧
    runOk (pe_handle_action env0 .removeSig 0
      (mkSt (mkCtx (some "in") (some "out") none none false 5 0) fsW)) = false ∧
    runOk (pe_handle_action env0 .exportSig 0
      (mkSt (mkCtx (some "in") none none (some "out") false 5 0) fsW)) = false := by
  have h := remove_export_invalid_index env0 0 "in" "out" peW fsW 5 0
    (by decide) rfl rfl
  exact ⟨by decide, rfl, rfl,
    (h.1 (Or.inr (by decide))).1,
    ((h.2.1 (by decide)).1)⟩

/-- C10: in the remove-signature workflow the out-of-range check on
`signum` runs only after `open_output` has created the output, copied the
input's bytes into it and cleared its certificate table: the run exits
fatally, yet the exit state's filesystem holds a fresh cleared-table copy
of the input at the output path, and the trace shows `openOutput`,
`copyOut` and `clearCert` before the exit with no `finalize`. -/
theorem remove_invalid_leaves_output_file
    (env : Env) (padding : Int) (pin pout : String) (fin : PEFile) (fs : FS)
    (signum num0 : Int)
    (hne : pin ≠ pout)
    (hin : fsLookup fs pin = some (.pe fin))
    (hout : fsLookup fs pout = none)
    (hbad : signum < 0 ∨ signum ≥ (fin.certs.length : Int)) :
    runOk (pe_handle_action env .removeSig padding
      (mkSt (mkCtx (some pin) (some pout) none none false signum num0) fs)) = false ∧
    fsLookup (stOf (pe_handle_action env .removeSig padding
        (mkSt (mkCtx (some pin) (some pout) none none false signum num0) fs))).fs pout
      = some (.pe { raw := fin.raw, certs := [] }) ∧
    Ev.finalize ∉ (stOf (pe_handle_action env .removeSig padding
      (mkSt (mkCtx (some pin) (some pout) none none false signum num0) fs))).trace ∧
    (stOf (pe_handle_action env .removeSig padding
        (mkSt (mkCtx (some pin) (some pout) none none false signum num0) fs))).trace =
      [.checkInputs, .openInput, .openOutput, .copyOut fin, .clearCert, .closeInput] := by
  rw [removeSig_invalid_run env padding pin pout fin fs hne hin hout signum num0 hbad]
  refine ⟨rfl, fsLookup_fsSet_self _ _ _, ?_, rfl⟩
  simp [stOf]

/-- Witness for `remove_invalid_leaves_output_file` at `signum = 5`. -/
theorem remove_invalid_leaves_output_file_inst :
    ("in" : String) ≠ "out" ∧
    fsLookup fsW "in" = some (.pe peW) ∧
    fsLookup fsW "out" = none ∧
    ((5 : Int) < 0 ∨ (5 : Int) ≥ (peW.certs.length : Int)) ∧
    runOk (pe_handle_action env0 .removeSig 0
      (mkSt (mkCtx (some "in") (some "out") none none false 5 0) fsW)) = false ∧
    fsLookup (stOf (pe_handle_action env0 .removeSig 0
        (mkSt (mkCtx (some "in") (some "out") none none false 5 0) fsW))).fs "out"
      = some (.pe { raw := peW.raw, certs := [] }) ∧
    Ev.finalize ∉ (stOf (pe_handle_action env0 .removeSig 0
      (mkSt (mkCtx (some "in") (some "out") none none false 5 0) fsW))).trace := by
  have h := remove_invalid_leaves_output_file env0 0 "in" "out" peW fsW 5 0
    (by decide) rfl rfl (Or.inr (by decide))
  exact ⟨by decide, rfl, rfl, Or.inr (by decide), h.1, h.2.1, h.2.2.1⟩

/-- C3: the import-signature workflow accepts a requested `signum` exactly
when `signum ≤ num_signatures + 1` (the strict greater-than test of the C
source, which deliberately lets `signum = count + 1` through); any larger
`signum` exits fatally with "Invalid signature number." while the trace
and filesystem show the signature file was neither opened nor parsed and
nothing was inserted. -/
theorem import_signature_bound_check
    (env : Env) (padding : Int) (pin pout psig : String) (fin : PEFile)
    (bs : List Nat) (fs : FS) (signum num0 : Int)
    (hne : pin ≠ pout) (hne2 : pout ≠ psig)
    (hin : fsLookup fs pin = some (.pe fin))
    (hout : fsLookup fs pout = none)
    (hsig : fsLookup fs psig = some (.blob bs))
    (hfits : ∀ s, env.sigFits s = true) :
    (signum > num0 + 1 →
      pe_handle_action env .importSig padding
          (mkSt (mkCtx (some pin) (some pout) (some psig) none false signum num0) fs) =
        .error ("Invalid signature number.",
          { ctx := mkCtx (some pin) (some pout) (some psig) none false signum num0,
            fs := fs, out := "",
            trace := [.checkInputs, .sigBoundCheck signum num0] })) ∧
    (¬ signum > num0 + 1 →
      runOk (pe_handle_action env .importSig padding
        (mkSt (mkCtx (some pin) (some pout) (some psig) none false signum num0) fs)) = true) := by
  constructor
  · intro hc
    simp [pe_handle_action, mseq, check_inputs, sigBoundCheckStep, mkSt, mkCtx, pushEv,
      hne, hc]
  · intro hc
    simp [pe_handle_action, mseq, check_inputs, sigBoundCheckStep, open_input, open_output,
      close_input, openAuxInput, parse_signature, extendAmountStep, extendAmount,
      allocate_signature_space, check_signature_space, insert_signature, closeAux,
      close_output, mkSt, mkCtx, pushEv, fsLookup_fsSet_ne, fsLookup_fsSet_self,
      hne, hne2, hin, hout, hsig, hfits, hc, runOk]

/-- Witness for `import_signature_bound_check`: with an initial count of
0, `signum = 2` is rejected before the signature file is touched, while
`signum = 1` (`count + 1`, the flagged boundary) is accepted and the whole
workflow succeeds. -/
theorem import_signature_bound_check_inst :
    ("in" : String) ≠ "out" ∧ ("out" : String) ≠ "sig.in" ∧
    fsLookup fsW "in" = some (.pe peW) ∧
    fsLookup fsW "out" = none ∧
    fsLookup fsW "sig.in" = some (.blob [7, 7]) ∧
    (∀ s, env0.sigFits s = true) ∧
    pe_handle_action env0 .importSig 0
        (mkSt (mkCtx (some "in") (some "out") (some "sig.in") none false 2 0) fsW) =
      .error ("Invalid signature number.",
        { ctx := mkCtx (some "in") (some "out") (some "sig.in") none false 2 0,
          fs := fsW, out := "",
          trace := [.checkInputs, .sigBoundCheck 2 0] }) ∧
    runOk (pe_handle_action env0 .importSig 0
      (mkSt (mkCtx (some "in") (some "out") (some "sig.in") none false 1 0) fsW)) = true := by
  have h1 := import_signature_bound_check env0 0 "in" "out" "sig.in" peW [7, 7] fsW 2 0
    (by decide) (by decide) rfl rfl rfl (fun s => rfl)
  have h2 := import_signature_bound_check env0 0 "in" "out" "sig.in" peW [7, 7] fsW 1 0
    (by decide) (by decide) rfl rfl rfl (fun s => rfl)
  exact ⟨by decide, by decide, rfl, rfl, rfl, fun s => rfl,
    h1.1 (by decide), h2.2 (by decide)⟩

/-- C9: in both the import-signature and the generate-and-embed
workflows, the `signum` bound check is evaluated before `open_input`
parses the input binary: with `signum > num0 + 1` for the count `num0`
held in the context, both runs exit with "Invalid signature number."
while the filesystem is untouched and the trace contains no `openInput` —
even though the hypothesis `signum ≤ file count + 1` means the input
file's actual table would have admitted the index.  The recorded
`sigBoundCheck` payload shows the comparison used `num0`. -/
theorem sig_bound_check_before_open_input
    (env : Env) (padding : Int) (pin pout : String) (fin : PEFile)
    (fs : FS) (signum num0 : Int)
    (hne : pin ≠ pout)
    (hin : fsLookup fs pin = some (.pe fin))
    (hcert : env.haveCert = true) (hkey : env.haveKey = true)
    (hc : signum > num0 + 1)
    (hfile : signum ≤ (fin.certs.length : Int) + 1) :
    pe_handle_action env .importSig padding
        (mkSt (mkCtx (some pin) (some pout) none none false signum num0) fs) =
      .error ("Invalid signature number.",
        { ctx := mkCtx (some pin) (some pout) none none false signum num0,
          fs := fs, out := "",
          trace := [.checkInputs, .sigBoundCheck signum num0] }) ∧
    pe_handle_action env .genImportSig padding
        (mkSt (mkCtx (some pin) (some pout) none none false signum num0) fs) =
      .error ("Invalid signature number.",
        { ctx := mkCtx (some pin) (some pout) none none false signum num0,
          fs := fs, out := "",
          trace := [.checkInputs, .findCert true, .sigBoundCheck signum num0] }) := by
  constructor
  · simp [pe_handle_action, mseq, check_inputs, sigBoundCheckStep, mkSt, mkCtx, pushEv,
      hne, hc]
  · simp [pe_handle_action, mseq, check_inputs, findCertStep, find_certificate,
      sigBoundCheckStep, mkSt, mkCtx, pushEv, hne, hcert, hkey, hc]

/-- Witness for `sig_bound_check_before_open_input`: `signum = 2` with a
context count of 0 is rejected in both workflows although the input
binary itself carries 1 signature (2 ≤ 1 + 1 would have passed). -/
theorem sig_bound_check_before_open_input_inst :
    ("in" : String) ≠ "out" ∧
    fsLookup fsW "in" = some (.pe peW) ∧
    env0.haveCert = true ∧ env0.haveKey = true ∧
    ((2 : Int) > 0 + 1) ∧ ((2 : Int) ≤ (peW.certs.length : Int) + 1) ∧
    pe_handle_action env0 .importSig 0
        (mkSt (mkCtx (some "in") (some "out") none none false 2 0) fsW) =
      .error ("Invalid signature number.",
        { ctx := mkCtx (some "in") (some "out") none none false 2 0,
          fs := fsW, out := "",
          trace := [.checkInputs, .sigBoundCheck 2 0] }) ∧
    pe_handle_action env0 .genImportSig 0
        (mkSt (mkCtx (some "in") (some "out") none none false 2 0) fsW) =
      .error ("Invalid signature number.",
        { ctx := mkCtx (some "in") (some "out") none none false 2 0,
          fs := fsW, out := "",
          trace := [.checkInputs, .findCert true, .sigBoundCheck 2 0] }) := by
  have h := sig_bound_check_before_open_input env0 0 "in" "out" peW fsW 2 0
    (by decide) rfl rfl rfl (by decide) (by decide)
  exact ⟨by decide, rfl, rfl, rfl, by decide, by decide, h.1, h.2⟩

/-- C5: in a successful generate-and-embed run the trace of primitive
calls is exactly `[checkInputs, findCert, sigBoundCheck, openInput,
openOutput, copyOut, clearCert, closeInput, genDigest, calcSigSpace,
allocSigSpace, genDigest, genSignature, insertSig, finalize, commit]`
(as tags), whence: the digest (tag 9) is computed before the signature
space is sized (10), sizing precedes allocation (12), allocation precedes
signature generation (14), insertion (17) precedes finalize (22),
finalize occurs exactly once and is immediately followed by the commit
(23), which is the last event — i.e. finalize is the last mutating step,
inside `close_output`, before the handle is committed. -/
theorem generate_embed_step_order
    (env : Env) (padding : Int) (pin pout : String) (fin : PEFile)
    (fs : FS) (signum num0 : Int)
    (hne : pin ≠ pout)
    (hin : fsLookup fs pin = some (.pe fin))
    (hout : fsLookup fs pout = none)
    (hcert : env.haveCert = true) (hkey : env.haveKey = true)
    (hc : ¬ signum > num0 + 1) :
    runOk (pe_handle_action env .genImportSig padding
      (mkSt (mkCtx (some pin) (some pout) none none false signum num0) fs)) = true ∧
    runTags env .genImportSig padding
        (mkCtx (some pin) (some pout) none none false signum num0) fs =
      [0, 1, 19, 4, 6, 7, 8, 5, 9, 10, 12, 9, 14, 17, 22, 23] ∧
    (runTags env .genImportSig padding
        (mkCtx (some pin) (some pout) none none false signum num0) fs).indexOf 9 <
      (runTags env .genImportSig padding
        (mkCtx (some pin) (some pout) none none false signum num0) fs).indexOf 10 ∧
    (runTags env .genImportSig padding
        (mkCtx (some pin) (some pout) none none false signum num0) fs).indexOf 10 <
      (runTags env .genImportSig padding
        (mkCtx (some pin) (some pout) none none false signum num0) fs).indexOf 12 ∧
    (runTags env .genImportSig padding
        (mkCtx (some pin) (some pout) none none false signum num0) fs).indexOf 12 <
      (runTags env .genImportSig padding
        (mkCtx (some pin) (some pout) none none false signum num0) fs).indexOf 14 ∧
    (runTags env .genImportSig padding
        (mkCtx (some pin) (some pout) none none false signum num0) fs).indexOf 17 <
      (runTags env .genImportSig padding
        (mkCtx (some pin) (some pout) none none false signum num0) fs).indexOf 22 ∧
    (runTags env .genImportSig padding
        (mkCtx (some pin) (some pout) none none false signum num0) fs).count 22 = 1 ∧
    (runTags env .genImportSig padding
        (mkCtx (some pin) (some pout) none none false signum num0) fs).indexOf 22 + 1 =
      (runTags env .genImportSig padding
        (mkCtx (some pin) (some pout) none none false signum num0) fs).indexOf 23 ∧
    (runTags env .genImportSig padding
        (mkCtx (some pin) (some pout) none none false signum num0) fs).indexOf 23 + 1 =
      (runTags env .genImportSig padding
        (mkCtx (some pin) (some pout) none none false signum num0) fs).length := by
  have ht : runTags env .genImportSig padding
      (mkCtx (some pin) (some pout) none none false signum num0) fs =
      [0, 1, 19, 4, 6, 7, 8, 5, 9, 10, 12, 9, 14, 17, 22, 23] := by
    simp [runTags, tagsOf, tag, stOf, pe_handle_action, mseq, check_inputs, findCertStep,
      find_certificate, sigBoundCheckStep, open_input, open_output, close_input,
      generate_digest, calcSigSpaceStep, calcSigSpaceAmount, allocate_signature_space,
      generate_signature, insert_signature, close_output, mkSt, mkCtx, pushEv,
      fsLookup_fsSet_ne, fsLookup_fsSet_self, hne, hin, hout, hcert, hkey, hc]
  refine ⟨?_, ht, ?_, ?_, ?_, ?_, ?_, ?_, ?_⟩
  · simp [pe_handle_action, mseq, check_inputs, findCertStep, find_certificate,
      sigBoundCheckStep, open_input, open_output, close_input, generate_digest,
      calcSigSpaceStep, calcSigSpaceAmount, allocate_signature_space, generate_signature,
      insert_signature, close_output, mkSt, mkCtx, pushEv, fsLookup_fsSet_ne,
      fsLookup_fsSet_self, hne, hin, hout, hcert, hkey, hc, runOk]
  all_goals rw [ht] ; decide

/-- Witness for `generate_embed_step_order`: a fresh embed at index 0
into a one-signature binary. -/
theorem generate_embed_step_order_inst :
    ("in" : String) ≠ "out" ∧
    fsLookup fsW "in" = some (.pe peW) ∧
    fsLookup fsW "out" = none ∧
    env0.haveCert = true ∧ env0.haveKey = true ∧
    ¬ (0 : Int) > 0 + 1 ∧
    runOk (pe_handle_action env0 .genImportSig 0
      (mkSt (mkCtx (some "in") (some "out") none none false 0 0) fsW)) = true ∧
    runTags env0 .genImportSig 0
        (mkCtx (some "in") (some "out") none none false 0 0) fsW =
      [0, 1, 19, 4, 6, 7, 8, 5, 9, 10, 12, 9, 14, 17, 22, 23] := by
  have h := generate_embed_step_order env0 0 "in" "out" peW fsW 0 0
    (by decide) rfl rfl rfl rfl (by decide)
  exact ⟨by decide, rfl, rfl, rfl, rfl, by decide, h.1, h.2.1⟩

/-- C2 counterexample: the import-raw-signature-plus-attributes workflow
does not require a private key.  With the certificate present in the
trust store but no key (`envNoKey`), the whole workflow succeeds, and the
trace's second event records that `find_certificate` was called with
`need_key = 0`. -/
theorem import_raw_no_key_succeeds :
    envNoKey.haveKey = false ∧
    runOk (pe_handle_action envNoKey .importRawSigSattrs 0
      (mkSt { mkCtx (some "in") (some "out") none none false 0 0 with
        rawsig := some "raw.sig", insattrs := some "attrs.in" } fsW)) = true ∧
    (stOf (pe_handle_action envNoKey .importRawSigSattrs 0
      (mkSt { mkCtx (some "in") (some "out") none none false 0 0 with
        rawsig := some "raw.sig", insattrs := some "attrs.in" } fsW))).trace.get? 1 =
      some (.findCert false) := by
  exact ⟨rfl, rfl, rfl⟩

/-- C2 (amended): the certificate lookup of the
import-raw-signature-plus-attributes workflow is made with
`need_key = 0` (no private key required, because the raw signature is
supplied externally); a lookup failure is the fatal
"Could not find certificate" error raised before any file of the workflow
is opened (the exit trace holds only `checkInputs` and the lookup, and
the filesystem is untouched), and when the certificate is present the
lookup passes whether or not a key exists. -/
theorem import_raw_sattrs_cert_lookup
    (env : Env) (padding : Int) (pin pout praw psat : String)
    (fin : PEFile) (br ba : List Nat) (fs : FS) (signum num0 : Int)
    (hne : pin ≠ pout)
    (hraw : fsLookup fs praw = some (.blob br))
    (hsat : fsLookup fs psat = some (.blob ba))
    (hin : fsLookup fs pin = some (.pe fin))
    (hout : fsLookup fs pout = none) :
    (env.haveCert = false →
      pe_handle_action env .importRawSigSattrs padding
          (mkSt { mkCtx (some pin) (some pout) none none false signum num0 with
            rawsig := some praw, insattrs := some psat } fs) =
        .error ("pesign: Could not find certificate " ++ "cert",
          { ctx := { mkCtx (some pin) (some pout) none none false signum num0 with
              rawsig := some praw, insattrs := some psat },
            fs := fs, out := "",
            trace := [.checkInputs, .findCert false] })) ∧
    (env.haveCert = true →
      runOk (pe_handle_action env .importRawSigSattrs padding
        (mkSt { mkCtx (some pin) (some pout) none none false signum num0 with
          rawsig := some praw, insattrs := some psat } fs)) = true ∧
      (stOf (pe_handle_action env .importRawSigSattrs padding
        (mkSt { mkCtx (some pin) (some pout) none none false signum num0 with
          rawsig := some praw, insattrs := some psat } fs))).trace.get? 1 =
        some (.findCert false)) := by
  constructor
  · intro hc
    simp [pe_handle_action, mseq, check_inputs, findCertStep, find_certificate,
      mkSt, mkCtx, pushEv, hne, hc]
  · intro hc
    constructor
    · simp [pe_handle_action, mseq, check_inputs, findCertStep, find_certificate,
        openAuxInput, import_raw_signature, closeAux, open_input, open_output,
        close_input, generate_digest, calcSigSpaceStep, calcSigSpaceAmount,
        allocate_signature_space, generate_signature, insert_signature, close_output,
        mkSt, mkCtx, pushEv, fsLookup_fsSet_ne, fsLookup_fsSet_self,
        hne, hraw, hsat, hin, hout, hc, runOk]
    · simp [pe_handle_action, mseq, check_inputs, findCertStep, find_certificate,
        openAuxInput, import_raw_signature, closeAux, open_input, open_output,
        close_input, generate_digest, calcSigSpaceStep, calcSigSpaceAmount,
        allocate_signature_space, generate_signature, insert_signature, close_output,
        mkSt, mkCtx, pushEv, fsLookup_fsSet_ne, fsLookup_fsSet_self,
        hne, hraw, hsat, hin, hout, hc, stOf]

/-- Witness for `import_raw_sattrs_cert_lookup`: the missing-certificate
exit with `envNoCert`, and the keyless success with `envNoKey`. -/
theorem import_raw_sattrs_cert_lookup_inst :
    ("in" : String) ≠ "out" ∧
    fsLookup fsW "raw.sig" = some (.blob [9]) ∧
    fsLookup fsW "attrs.in" = some (.blob [8]) ∧
    fsLookup fsW "in" = some (.pe peW) ∧
    fsLookup fsW "out" = none ∧
    envNoCert.haveCert = false ∧ envNoKey.haveCert = true ∧
    pe_handle_action envNoCert .importRawSigSattrs 0
        (mkSt { mkCtx (some "in") (some "out") none none false 0 0 with
          rawsig := some "raw.sig", insattrs := some "attrs.in" } fsW) =
      .error ("pesign: Could not find certificate " ++ "cert",
        { ctx := { mkCtx (some "in") (some "out") none none false 0 0 with
            rawsig := some "raw.sig", insattrs := some "attrs.in" },
          fs := fsW, out := "",
          trace := [.checkInputs, .findCert false] }) ∧
    runOk (pe_handle_action envNoKey .importRawSigSattrs 0
      (mkSt { mkCtx (some "in") (some "out") none none false 0 0 with
        rawsig := some "raw.sig", insattrs := some "attrs.in" } fsW)) = true := by
  have h1 := import_raw_sattrs_cert_lookup envNoCert 0 "in" "out" "raw.sig" "attrs.in"
    peW [9] [8] fsW 0 0 (by decide) rfl rfl rfl rfl
  have h2 := import_raw_sattrs_cert_lookup envNoKey 0 "in" "out" "raw.sig" "attrs.in"
    peW [9] [8] fsW 0 0 (by decide) rfl rfl rfl rfl
  exact ⟨by decide, rfl, rfl, rfl, rfl, rfl, rfl, h1.1 rfl, (h2.2 rfl).1⟩

theorem hexDigit_hexLower (n : Nat) (h : n < 16) : isHexLowerChar (hexDigit n) = true := by
  interval_cases n <;> decide

theorem byteHex_length (b : Nat) : (byteHex b).length = 2 := by
  simp [byteHex, String.length]

theorem hexOfBytes_length (d : List Nat) : (hexOfBytes d).length = 2 * d.length := by
  induction d with
  | nil => rfl
  | cons b rest ih =>
    simp [hexOfBytes, String.length_append, byteHex_length, ih]
    ring

theorem byteHex_chars (b : Nat) : ∀ c ∈ (byteHex b).data, isHexLowerChar c = true := by
  intro c hc
  simp [byteHex] at hc
  rcases hc with h | h <;> subst h
  · exact hexDigit_hexLower _ (by omega)
  · exact hexDigit_hexLower _ (by omega)

theorem hexOfBytes_chars (d : List Nat) :
    ∀ c ∈ (hexOfBytes d).data, isHexLowerChar c = true := by
  induction d with
  | nil => intro c hc; simp [hexOfBytes] at hc
  | cons b rest ih =>
    intro c hc
    simp [hexOfBytes, String.data_append] at hc
    rcases hc with h | h
    · exact byteHex_chars b c (by simpa using h)
    · exact ih c (by simpa using h)

/-- C7: a successful digest run prints exactly the input path, one space,
the digest bytes as lowercase hexadecimal with no separators, and a
trailing newline; the hex portion's length is twice the digest's byte
length, every character of it is a lowercase hex digit, and the whole
output is a function of the input file and the padding flag only
(determinism). -/
theorem digest_print_format
    (env : Env) (padding : Int) (pin : String) (fin : PEFile) (fs : FS)
    (signum num0 : Int)
    (hin : fsLookup fs pin = some (.pe fin)) :
    runOk (pe_handle_action env .digest padding
      (mkSt (mkCtx (some pin) none none none false signum num0) fs)) = true ∧
    (stOf (pe_handle_action env .digest padding
        (mkSt (mkCtx (some pin) none none none false signum num0) fs))).out =
      pin ++ " " ++ hexOfBytes (env.digestFn fin padding) ++ "\n" ∧
    (hexOfBytes (env.digestFn fin padding)).length =
      2 * (env.digestFn fin padding).length ∧
    (∀ c ∈ (hexOfBytes (env.digestFn fin padding)).data, isHexLowerChar c = true) := by
  refine ⟨?_, ?_, hexOfBytes_length _, hexOfBytes_chars _⟩
  · simp [pe_handle_action, mseq, open_input, generate_digest, print_digest,
      print_digest_str, mkSt, mkCtx, pushEv, hin, runOk]
  · simp [pe_handle_action, mseq, open_input, generate_digest, print_digest,
      print_digest_str, mkSt, mkCtx, pushEv, hin, stOf]

/-- Witness for `digest_print_format`: digesting `peW` with padding 1
prints "in 0201\n". -/
theorem digest_print_format_inst :
    fsLookup fsW "in" = some (.pe peW) ∧
    runOk (pe_handle_action env0 .digest 1
      (mkSt (mkCtx (some "in") none none none false 0 0) fsW)) = true ∧
    (stOf (pe_handle_action env0 .digest 1
        (mkSt (mkCtx (some "in") none none none false 0 0) fsW))).out =
      "in " ++ hexOfBytes (env0.digestFn peW 1) ++ "\n" ∧
    (stOf (pe_handle_action env0 .digest 1
        (mkSt (mkCtx (some "in") none none none false 0 0) fsW))).out = "in 0201\n" := by
  have h := digest_print_format env0 1 "in" peW fsW 0 0 rfl
  exact ⟨rfl, h.1, h.2.1, by decide⟩

/-- C8: a successful export run writes the selected entry's bytes to the
signature output file and afterwards clears the staging slot `newsig`:
the final context has `newsig = none`, the output file holds exactly the
selected entry, and the trace shows the `memcpy`-export (`exportSig`)
strictly before the `memset` (`clearNewsig`), which is the last step. -/
theorem export_staging_slot_cleared
    (env : Env) (padding : Int) (pin pout : String) (fin : PEFile) (fs : FS)
    (signum num0 : Int)
    (hin : fsLookup fs pin = some (.pe fin))
    (hout : fsLookup fs pout = none)
    (h0 : 0 ≤ signum) (hlt : signum < (fin.certs.length : Int)) :
    runOk (pe_handle_action env .exportSig padding
      (mkSt (mkCtx (some pin) none none (some pout) false signum num0) fs)) = true ∧
    (stOf (pe_handle_action env .exportSig padding
      (mkSt (mkCtx (some pin) none none (some pout) false signum num0) fs))).ctx.cms.newsig
      = none ∧
    fsLookup (stOf (pe_handle_action env .exportSig padding
        (mkSt (mkCtx (some pin) none none (some pout) false signum num0) fs))).fs pout =
      some (.blob (sigAt fin.certs signum)) ∧
    (stOf (pe_handle_action env .exportSig padding
        (mkSt (mkCtx (some pin) none none (some pout) false signum num0) fs))).trace =
      [.openInput, .openFile "signature", .exportSig, .closeInput,
       .closeFile "signature", .clearNewsig] := by
  have h1 : ¬ signum > (fin.certs.length : Int) := by omega
  have h2 : ¬ signum < 0 := by omega
  have h3 : ¬ signum ≥ (fin.certs.length : Int) := by omega
  refine ⟨?_, ?_, ?_, ?_⟩ <;>
    simp [pe_handle_action, mseq, open_input, openAuxOutput, exportSigSelect,
      export_signature, close_input, closeAux, clearNewsigStep, mkSt, mkCtx, pushEv,
      fsLookup_fsSet_ne, fsLookup_fsSet_self, hin, hout, h1, h2, h3, runOk, stOf]

/-- Witness for `export_staging_slot_cleared`: exporting index 0 of the
one-signature binary `peW`. -/
theorem export_staging_slot_cleared_inst :
    fsLookup fsW "in" = some (.pe peW) ∧
    fsLookup fsW "sig.out" = none ∧
    ((0 : Int) ≤ 0) ∧ ((0 : Int) < (peW.certs.length : Int)) ∧
    runOk (pe_handle_action env0 .exportSig 0
      (mkSt (mkCtx (some "in") none none (some "sig.out") false 0 0) fsW)) = true ∧
    (stOf (pe_handle_action env0 .exportSig 0
      (mkSt (mkCtx (some "in") none none (some "sig.out") false 0 0) fsW))).ctx.cms.newsig
      = none ∧
    fsLookup (stOf (pe_handle_action env0 .exportSig 0
        (mkSt (mkCtx (some "in") none none (some "sig.out") false 0 0) fsW))).fs "sig.out" =
      some (.blob (sigAt peW.certs 0)) := by
  have h := export_staging_slot_cleared env0 0 "in" "sig.out" peW fsW 0 0
    rfl rfl (by decide) (by decide)
  exact ⟨rfl, rfl, by decide, by decide, h.1, h.2.1, h.2.2.1⟩
